import Mathlib

/-!
Formal model of the `sbet` crate (reader, writer and interpolator for
Smoothed Best Estimate of Trajectory files), together with proofs about it.

The crate stores every quantity as an IEEE-754 binary64 (`f64`).  Two views
of an `f64` are used here, matching the two ways the crate touches them:

* the codec (`Reader::read_one` / `Writer::write_one`) moves raw bit
  patterns between a byte stream and the fields of a `Point`; for those
  claims a field is modelled as its 64-bit pattern, a `Nat` below `2^64`;
* `interpolate` computes with the numeric values; for those claims a field
  is modelled by `F`, an exact value-level model of binary64 with NaN,
  signed infinities, signed zeros, and round-to-nearest-even arithmetic on
  the representable magnitudes.

In `F`, a finite nonzero double is stored as its exact value scaled by
`2^1074`: the integer `k` denotes the real number `k * 2^(-1074)`.  Every
finite binary64 value is an integer multiple of `2^(-1074)`, and distinct
finite nonzero doubles have distinct values, so equality of `F` is
bit-for-bit equality of doubles (signed zeros are kept apart by their own
constructor, and all NaN payloads are identified, which is all the crate
can observe of them).
-/

set_option maxRecDepth 20000

/-- Value model of an IEEE-754 binary64 number: NaN, signed infinity,
signed zero, or a finite nonzero value `k * 2^(-1074)`. -/
inductive F where
  | nan : F
  | inf (neg : Bool) : F
  | zero (neg : Bool) : F
  | finite (k : ℤ) : F
deriving DecidableEq

/-- Bit length of a natural number below `2^4`, by direct case split. -/
def blen4 (n : Nat) : Nat :=
  if n = 0 then 0 else if n = 1 then 1 else if n < 4 then 2 else if n < 8 then 3 else 4

/-- Bit length below `2^8`. -/
def blen8 (n : Nat) : Nat := if n < 2^4 then blen4 n else 4 + blen4 (n / 2^4)

/-- Bit length below `2^16`. -/
def blen16 (n : Nat) : Nat := if n < 2^8 then blen8 n else 8 + blen8 (n / 2^8)

/-- Bit length below `2^32`. -/
def blen32 (n : Nat) : Nat := if n < 2^16 then blen16 n else 16 + blen16 (n / 2^16)

/-- Bit length below `2^64`. -/
def blen64 (n : Nat) : Nat := if n < 2^32 then blen32 n else 32 + blen32 (n / 2^32)

/-- Bit length in chunks of 64 bits; the fuel bounds the number of chunks. -/
def bitlenGo : Nat → Nat → Nat
  | 0, _ => 0
  | fuel+1, n => if n < 2^64 then blen64 n else 64 + bitlenGo fuel (n / 2^64)

/-- Bit length of a natural number: `0` for `0`, otherwise the unique `L`
with `2^(L-1) ≤ n < 2^L`.  Sixty-four chunks of 64 bits cover every number
below `2^4096`, far beyond anything arising from binary64 arithmetic. -/
def bitlen (n : Nat) : Nat := bitlenGo 64 n

/-- Round the nonnegative rational `nn / dd` (with `dd > 0`) to the nearest
integer, ties to even. -/
def rne (nn dd : Nat) : Nat :=
  let u := nn / dd
  let r := nn % dd
  if 2 * r < dd then u
  else if dd < 2 * r then u + 1
  else if u % 2 = 0 then u else u + 1

/-- Decide whether `n / d ≥ 2^c` for naturals `n, d > 0` and an integer `c`. -/
def qpowGE (n d : Nat) (c : ℤ) : Bool :=
  if 0 ≤ c then d * 2^c.toNat ≤ n else d ≤ n * 2^(-c).toNat

/-- Round the positive rational `n / d` (both arguments positive), taken with
the sign `neg`, to the nearest binary64 value, ties to even — the IEEE-754
`roundTiesToEven` attribute.  The result is the correctly rounded finite
value, a signed zero on total underflow, or a signed infinity on overflow. -/
def roundPos (neg : Bool) (n d : Nat) : F :=
  let c : ℤ := (bitlen n : ℤ) - (bitlen d : ℤ)
  let e : ℤ := if qpowGE n d c then c else c - 1
  if e < -1022 then
    let m := rne (n * 2^1074) d
    if m = 0 then .zero neg else .finite (if neg then -(m : ℤ) else (m : ℤ))
  else
    let sh : ℤ := e - 52
    let m := if 0 ≤ sh then rne n (d * 2^sh.toNat) else rne (n * 2^(-sh).toNat) d
    let k := m * 2^(e + 1022).toNat
    if 2^2098 ≤ k then .inf neg
    else .finite (if neg then -(k : ℤ) else (k : ℤ))

/-- Round the exact value `s * 2^(-1074)` (with `s ≠ 0`) to binary64. -/
def roundInt (s : ℤ) : F := roundPos (decide (s < 0)) s.natAbs (2^1074)

/-- IEEE-754 negation. -/
def fneg : F → F
  | .nan => .nan
  | .inf s => .inf (!s)
  | .zero s => .zero (!s)
  | .finite a => .finite (-a)

/-- IEEE-754 addition (round to nearest, ties to even).  An exact zero sum of
finite operands is `+0`, and `(+0) + (-0) = +0`, as roundTiesToEven demands. -/
def fadd : F → F → F
  | .nan, _ => .nan
  | _, .nan => .nan
  | .inf s, .inf t => if s = t then .inf s else .nan
  | .inf s, .zero _ => .inf s
  | .inf s, .finite _ => .inf s
  | .zero _, .inf t => .inf t
  | .finite _, .inf t => .inf t
  | .zero s, .zero t => if s = t then .zero s else .zero false
  | .zero _, .finite b => .finite b
  | .finite a, .zero _ => .finite a
  | .finite a, .finite b => if a + b = 0 then .zero false else roundInt (a + b)

/-- IEEE-754 subtraction, `x - y = x + (-y)`. -/
def fsub (x y : F) : F := fadd x (fneg y)

/-- IEEE-754 multiplication (round to nearest, ties to even). -/
def fmul : F → F → F
  | .nan, _ => .nan
  | _, .nan => .nan
  | .inf s, .inf t => .inf (xor s t)
  | .inf _, .zero _ => .nan
  | .zero _, .inf _ => .nan
  | .inf s, .finite b => .inf (xor s (decide (b < 0)))
  | .finite a, .inf t => .inf (xor (decide (a < 0)) t)
  | .zero s, .zero t => .zero (xor s t)
  | .zero s, .finite b => .zero (xor s (decide (b < 0)))
  | .finite a, .zero t => .zero (xor (decide (a < 0)) t)
  | .finite a, .finite b =>
    if a * b = 0 then .zero (xor (decide (a < 0)) (decide (b < 0)))
    else roundPos (decide (a * b < 0)) (a * b).natAbs (2^2148)

/-- IEEE-754 division (round to nearest, ties to even); `0/0`, `inf/inf`
give NaN, division of a finite nonzero value by zero gives infinity. -/
def fdiv : F → F → F
  | .nan, _ => .nan
  | _, .nan => .nan
  | .inf _, .inf _ => .nan
  | .inf s, .zero t => .inf (xor s t)
  | .inf s, .finite b => .inf (xor s (decide (b < 0)))
  | .zero s, .inf t => .zero (xor s t)
  | .finite a, .inf t => .zero (xor (decide (a < 0)) t)
  | .zero _, .zero _ => .nan
  | .zero s, .finite b => .zero (xor s (decide (b < 0)))
  | .finite a, .zero t => .inf (xor (decide (a < 0)) t)
  | .finite a, .finite b =>
    if a = 0 then .zero (xor (decide (a < 0)) (decide (b < 0)))
    else if b = 0 then .inf (decide (a < 0))
    else roundPos (xor (decide (a < 0)) (decide (b < 0))) a.natAbs b.natAbs

/-- IEEE-754 strict less-than, as Rust's `<` on `f64`: false whenever either
operand is NaN, `-0 < +0` is false. -/
def flt : F → F → Bool
  | .nan, _ => false
  | _, .nan => false
  | .inf s, .inf t => s && !t
  | .inf s, .zero _ => s
  | .inf s, .finite _ => s
  | .zero _, .inf t => !t
  | .finite _, .inf t => !t
  | .zero _, .zero _ => false
  | .zero _, .finite b => decide (0 < b)
  | .finite a, .zero _ => decide (a < 0)
  | .finite a, .finite b => decide (a < b)

/-- IEEE-754 equality, as Rust's `==` on `f64`: false whenever either operand
is NaN, `-0 == +0` is true. -/
def feq : F → F → Bool
  | .nan, _ => false
  | _, .nan => false
  | .inf s, .inf t => s == t
  | .zero _, .zero _ => true
  | .finite a, .finite b => a == b
  | _, _ => false

/-- Rust's `<=` on `f64`: less-than or IEEE equality. -/
def fle (x y : F) : Bool := flt x y || feq x y

/-- Rust's `>` on `f64`. -/
def fgt (x y : F) : Bool := flt y x

/-- Rust's `>=` on `f64`. -/
def fge (x y : F) : Bool := fle y x

/-- The positive finite binary64 value `n * 2^(-1074)` (for `0 < n`). -/
def fpos (n : Nat) : F := .finite (n : ℤ)

/-- The negative finite binary64 value `-n * 2^(-1074)` (for `0 < n`). -/
def fneg0 (n : Nat) : F := .finite (-(n : ℤ))

/-- Smoothed Best Estimate of Trajectory (SBET) point: 17 `f64` fields in
the crate's declaration order, which is also the record order on disk.
The field type is a parameter so that the same structure serves both views
of an `f64`: `Point Nat` carries 64-bit patterns (for the codec), while
`Point F` carries binary64 values (for the interpolator). -/
structure Point (α : Type) where
  time : α
  latitude : α
  longitude : α
  altitude : α
  x_velocity : α
  y_velocity : α
  z_velocity : α
  roll : α
  pitch : α
  yaw : α
  wander_angle : α
  x_acceleration : α
  y_acceleration : α
  z_acceleration : α
  x_angular_rate : α
  y_angular_rate : α
  z_angular_rate : α
deriving DecidableEq

/-- The crate's record-size constant.  Note that the codec actually moves
17 fields of 8 bytes, 136 bytes per record, so this constant disagrees with
the codec; it is what `estimate_number_of_points` divides by. -/
def SIZE_OF_SBET_POINT_IN_BYTES : Nat := 112

/-- Point-count estimate from the file size alone (`estimate_number_of_points`
reads only the file metadata, never the contents; the file is represented
here by its size in bytes). -/
def estimate_number_of_points (fileSize : Nat) : Nat :=
  fileSize / SIZE_OF_SBET_POINT_IN_BYTES

/-- The eight little-endian bytes of a 64-bit pattern, least significant
first, as written by `write_f64::<LittleEndian>`. -/
def bytesOfF64 (x : Nat) : List Nat :=
  [x % 256, x / 2^8 % 256, x / 2^16 % 256, x / 2^24 % 256,
   x / 2^32 % 256, x / 2^40 % 256, x / 2^48 % 256, x / 2^56 % 256]

/-- Reassemble a little-endian byte list into a natural number. -/
def leAssemble : List Nat → Nat
  | [] => 0
  | b :: rest => b + 256 * leAssemble rest

/-- One `read_f64::<LittleEndian>` step on a byte stream: reads exactly eight
bytes and returns the assembled bit pattern with the remaining stream, or
fails (the underlying `read_exact` reports `UnexpectedEof`) when fewer than
eight bytes remain. -/
def readF64 (bytes : List Nat) : Option (Nat × List Nat) :=
  if 8 ≤ bytes.length then some (leAssemble (bytes.take 8), bytes.drop 8) else none

/-- Outcome of `Reader::read_one`: a decoded point with the rest of the
stream (`Ok(Some(point))`), the clean end-of-stream signal (`Ok(None)`),
or the truncated-record decode error (`Err` carrying the `UnexpectedEof`
I/O error raised by a field after the first). -/
inductive ReadOneResult where
  | point (p : Point Nat) (rest : List Nat) : ReadOneResult
  | eof : ReadOneResult
  | truncated : ReadOneResult
deriving DecidableEq

/-- Fields 2 to 17 of a record: sixteen further `read_f64` steps, each
propagating failure with `?`, then the `Point` literal in field order. -/
def readRest (time : Nat) (r0 : List Nat) : Option (Point Nat × List Nat) :=
  match readF64 r0 with
  | none => none
  | some a1 =>
    match readF64 a1.2 with
    | none => none
    | some a2 =>
      match readF64 a2.2 with
      | none => none
      | some a3 =>
        match readF64 a3.2 with
        | none => none
        | some a4 =>
          match readF64 a4.2 with
          | none => none
          | some a5 =>
            match readF64 a5.2 with
            | none => none
            | some a6 =>
              match readF64 a6.2 with
              | none => none
              | some a7 =>
                match readF64 a7.2 with
                | none => none
                | some a8 =>
                  match readF64 a8.2 with
                  | none => none
                  | some a9 =>
                    match readF64 a9.2 with
                    | none => none
                    | some a10 =>
                      match readF64 a10.2 with
                      | none => none
                      | some a11 =>
                        match readF64 a11.2 with
                        | none => none
                        | some a12 =>
                          match readF64 a12.2 with
                          | none => none
                          | some a13 =>
                            match readF64 a13.2 with
                            | none => none
                            | some a14 =>
                              match readF64 a14.2 with
                              | none => none
                              | some a15 =>
                                match readF64 a15.2 with
                                | none => none
                                | some a16 =>
                                  some ({ time := time, latitude := a1.1, longitude := a2.1, altitude := a3.1,
                                          x_velocity := a4.1, y_velocity := a5.1, z_velocity := a6.1,
                                          roll := a7.1, pitch := a8.1, yaw := a9.1, wander_angle := a10.1,
                                          x_acceleration := a11.1, y_acceleration := a12.1,
                                          z_acceleration := a13.1, x_angular_rate := a14.1,
                                          y_angular_rate := a15.1, z_angular_rate := a16.1 }, a16.2)

/-- `Reader::read_one`: the first field's read maps `UnexpectedEof` to the
clean end-of-stream signal `Ok(None)`; a failure in any later field is a
decode error. -/
def read_one (bytes : List Nat) : ReadOneResult :=
  match readF64 bytes with
  | none => .eof
  | some tr =>
    match readRest tr.1 tr.2 with
    | none => .truncated
    | some pr => .point pr.1 pr.2

/-- `Writer::write_one`: the seventeen fields in declaration order, eight
little-endian bytes each, appended to the sink. -/
def write_one (p : Point Nat) : List Nat :=
  bytesOfF64 p.time ++ bytesOfF64 p.latitude ++ bytesOfF64 p.longitude ++
  bytesOfF64 p.altitude ++ bytesOfF64 p.x_velocity ++ bytesOfF64 p.y_velocity ++
  bytesOfF64 p.z_velocity ++ bytesOfF64 p.roll ++ bytesOfF64 p.pitch ++
  bytesOfF64 p.yaw ++ bytesOfF64 p.wander_angle ++ bytesOfF64 p.x_acceleration ++
  bytesOfF64 p.y_acceleration ++ bytesOfF64 p.z_acceleration ++
  bytesOfF64 p.x_angular_rate ++ bytesOfF64 p.y_angular_rate ++
  bytesOfF64 p.z_angular_rate

/-- Encoding a sequence of points in order, one `write_one` call each. -/
def writeAll : List (Point Nat) → List Nat
  | [] => []
  | p :: rest => write_one p ++ writeAll rest

/-- Reading a stream to exhaustion by repeated `read_one` calls, as the
`Iterator` implementation does: `some points` when the loop ends in the
clean end-of-stream signal, `none` when it hits a decode error.  The fuel
only bounds the recursion; each successful step consumes 136 bytes, so
`bytes.length + 1` steps are always enough. -/
def readAllGo : Nat → List Nat → Option (List (Point Nat))
  | 0, _ => none
  | fuel+1, bytes =>
    match read_one bytes with
    | .eof => some []
    | .truncated => none
    | .point p rest => (readAllGo fuel rest).map (p :: ·)

/-- Reading a whole stream to exhaustion. -/
def readAll (bytes : List Nat) : Option (List (Point Nat)) :=
  readAllGo (bytes.length + 1) bytes

/-- Rust's `Iterator::step_by(n)` state machine (for `n ≥ 1`): the counter
holds how many upcoming elements to discard before the next one is kept;
every element is still pulled from the underlying iterator (each skipped
record is fully decoded), only the surfacing is filtered. -/
def stepByGo {α : Type} (n : Nat) : Nat → List α → List α
  | _, [] => []
  | counter, x :: rest =>
    if counter = 0 then x :: stepByGo n (n - 1) rest
    else stepByGo n (counter - 1) rest

/-- `step_by n` keeps the elements at indices `0, n, 2n, …` of a sequence. -/
def step_by {α : Type} (n : Nat) (l : List α) : List α := stepByGo n 0 l

/-- The crate's error enum, restricted to the variants `interpolate` can
produce (the `Io` variant only wraps errors of the byte source, which the
codec model covers separately through `ReadOneResult`). -/
inductive Error where
  | extrapolation (time : F) (start_time : F) (end_time : F) : Error
  | noPoints : Error
  | onePoint : Error
deriving DecidableEq

/-- Outcome of `interpolate`: a point, a typed error, or the panic of the
`unreachable!()` arm after the pair scan. -/
inductive InterpolateResult where
  | ok (point : Point F) : InterpolateResult
  | err (e : Error) : InterpolateResult
  | panicked : InterpolateResult
deriving DecidableEq

/-- The point built in the loop body of `interpolate` for the bracketing
pair `(before, after)`: `factor = (time - before.time) / (after.time -
before.time)`, the `time` field is the query time itself, and every other
field is `before.field + factor * (after.field - before.field)`. -/
def lerpPoint (before after : Point F) (time : F) : Point F :=
  let factor := fdiv (fsub time before.time) (fsub after.time before.time)
  { time := time
    latitude := fadd before.latitude (fmul factor (fsub after.latitude before.latitude))
    longitude := fadd before.longitude (fmul factor (fsub after.longitude before.longitude))
    altitude := fadd before.altitude (fmul factor (fsub after.altitude before.altitude))
    x_velocity := fadd before.x_velocity (fmul factor (fsub after.x_velocity before.x_velocity))
    y_velocity := fadd before.y_velocity (fmul factor (fsub after.y_velocity before.y_velocity))
    z_velocity := fadd before.z_velocity (fmul factor (fsub after.z_velocity before.z_velocity))
    roll := fadd before.roll (fmul factor (fsub after.roll before.roll))
    pitch := fadd before.pitch (fmul factor (fsub after.pitch before.pitch))
    yaw := fadd before.yaw (fmul factor (fsub after.yaw before.yaw))
    wander_angle := fadd before.wander_angle
      (fmul factor (fsub after.wander_angle before.wander_angle))
    x_acceleration := fadd before.x_acceleration
      (fmul factor (fsub after.x_acceleration before.x_acceleration))
    y_acceleration := fadd before.y_acceleration
      (fmul factor (fsub after.y_acceleration before.y_acceleration))
    z_acceleration := fadd before.z_acceleration
      (fmul factor (fsub after.z_acceleration before.z_acceleration))
    x_angular_rate := fadd before.x_angular_rate
      (fmul factor (fsub after.x_angular_rate before.x_angular_rate))
    y_angular_rate := fadd before.y_angular_rate
      (fmul factor (fsub after.y_angular_rate before.y_angular_rate))
    z_angular_rate := fadd before.z_angular_rate
      (fmul factor (fsub after.z_angular_rate before.z_angular_rate)) }

/-- The condition of the loop body: `before.time <= time && after.time >= time`. -/
def bracket (before after : Point F) (time : F) : Bool :=
  fle before.time time && fge after.time time

/-- The loop of `interpolate`: walk `points.iter().zip(points.iter().skip(1))`
in order and return the interpolated point of the first adjacent pair whose
bracket condition holds, if any. -/
def interpolateScan (time : F) : List (Point F) → Option (Point F)
  | before :: after :: rest =>
    if bracket before after time then some (lerpPoint before after time)
    else interpolateScan time (after :: rest)
  | _ => none

/-- The first adjacent pair whose bracket condition holds — the pair whose
`lerpPoint` the scan returns. -/
def firstBracket (time : F) : List (Point F) → Option (Point F × Point F)
  | before :: after :: rest =>
    if bracket before after time then some (before, after)
    else firstBracket time (after :: rest)
  | _ => none

/-- `sbet::interpolate`: empty and one-element checks, the range
(extrapolation) check against the first and last times, then the pair scan;
a scan that finds no pair falls into the `unreachable!()` arm. -/
def interpolate (points : List (Point F)) (time : F) : InterpolateResult :=
  match points with
  | [] => .err .noPoints
  | [_] => .err .onePoint
  | p0 :: p1 :: rest =>
    let lastPoint := (p0 :: p1 :: rest).getLast (List.cons_ne_nil p0 (p1 :: rest))
    if fgt p0.time time || flt lastPoint.time time then
      .err (.extrapolation time p0.time lastPoint.time)
    else
      match interpolateScan time (p0 :: p1 :: rest) with
      | some p => .ok p
      | none => .panicked

/-- A point with the same value in all 17 fields. -/
def constPoint {α : Type} (x : α) : Point α :=
  ⟨x, x, x, x, x, x, x, x, x, x, x, x, x, x, x, x, x⟩

/-- First point of the boundary counterexample: time `1.0`, latitude `-0.0`,
longitude `1.0`, all other fields `+0.0`. -/
def cxBefore : Point F :=
  { constPoint (F.zero false) with
      time := fpos (2^1074)
      latitude := F.zero true
      longitude := fpos (2^1074) }

/-- Second point of the boundary counterexample: time `2.0`, latitude `1.0`,
longitude `2^(-60)`, all other fields `+0.0`. -/
def cxAfter : Point F :=
  { constPoint (F.zero false) with
      time := fpos (2^1075)
      latitude := fpos (2^1074)
      longitude := fpos (2^1014) }

/-- A bit pattern fits in 64 bits.  The byte codec is lossless exactly on
such field values. -/
abbrev Bits64 (x : Nat) : Prop := x < 2^64

/-- A bit pattern denotes a finite `f64`: it fits in 64 bits and its
exponent field is not all ones (all-ones exponents encode infinities
and NaNs). -/
abbrev FiniteBits (x : Nat) : Prop := x < 2^64 ∧ x / 2^52 % 2^11 ≠ 2047

/-- All seventeen fields of a point fit in 64 bits. -/
abbrev PointBits64 (p : Point Nat) : Prop :=
  Bits64 p.time ∧ Bits64 p.latitude ∧ Bits64 p.longitude ∧ Bits64 p.altitude ∧
  Bits64 p.x_velocity ∧ Bits64 p.y_velocity ∧ Bits64 p.z_velocity ∧
  Bits64 p.roll ∧ Bits64 p.pitch ∧ Bits64 p.yaw ∧ Bits64 p.wander_angle ∧
  Bits64 p.x_acceleration ∧ Bits64 p.y_acceleration ∧ Bits64 p.z_acceleration ∧
  Bits64 p.x_angular_rate ∧ Bits64 p.y_angular_rate ∧ Bits64 p.z_angular_rate

/-- All seventeen fields of a point are finite `f64` bit patterns. -/
abbrev PointFinite (p : Point Nat) : Prop :=
  FiniteBits p.time ∧ FiniteBits p.latitude ∧ FiniteBits p.longitude ∧
  FiniteBits p.altitude ∧ FiniteBits p.x_velocity ∧ FiniteBits p.y_velocity ∧
  FiniteBits p.z_velocity ∧ FiniteBits p.roll ∧ FiniteBits p.pitch ∧
  FiniteBits p.yaw ∧ FiniteBits p.wander_angle ∧ FiniteBits p.x_acceleration ∧
  FiniteBits p.y_acceleration ∧ FiniteBits p.z_acceleration ∧
  FiniteBits p.x_angular_rate ∧ FiniteBits p.y_angular_rate ∧
  FiniteBits p.z_angular_rate

/-- The all-zero bit-pattern point (every field `+0.0`). -/
def zeroPointBits : Point Nat := constPoint 0

/-- The point with every field `1.0`. -/
def onesPoint : Point F := constPoint (fpos (2^1074))

/-- The point with every field `2.0`. -/
def twosPoint : Point F := constPoint (fpos (2^1075))

/-- Ascending time order, the precondition the interpolation claims quote
(the code never checks it). -/
abbrev SortedByTime (points : List (Point F)) : Prop :=
  List.Chain' (fun p q => fle p.time q.time = true) points

example : fadd (fpos (3602879701896397 * 2^1019)) (fpos (3602879701896397 * 2^1020)) =
    fpos (5404319552844596 * 2^1020) := by decide

example : fadd (fpos (3602879701896397 * 2^1019)) (fpos (3602879701896397 * 2^1020)) ≠
    fpos (5404319552844595 * 2^1020) := by decide

example : fdiv (fpos (2^1074)) (fpos (3 * 2^1074)) =
    fpos (6004799503160661 * 2^1020) := by decide

example : fadd (fpos (2^1074)) (fpos (2^1014)) = fpos (2^1074) := by decide

example : fmul (fpos (2^1073)) (fpos (2^1074)) = fpos (2^1073) := by decide

example : fsub (fpos (2^1014)) (fpos (2^1074)) = fneg0 (2^1074) := by decide

example : fdiv (.zero false) (.zero false) = .nan := by decide

example : fadd (.zero true) (.zero false) = .zero false := by decide

example : fdiv (fpos 1) (fpos (2^1075)) = .zero false := by decide

example : fdiv (fpos 3) (fpos (2^1075)) = fpos 2 := by decide

example : fadd (fpos ((2^53 - 1) * 2^2045)) (fpos ((2^53 - 1) * 2^2045)) = .inf false := by decide

example : fmul (fpos ((2^53 - 1) * 2^2045)) (fpos ((2^53 - 1) * 2^2045)) = .inf false := by decide

example : interpolate [constPoint (fpos (2^1074)), constPoint (fpos (2^1075))]
    (fpos (3 * 2^1073)) = .ok (constPoint (fpos (3 * 2^1073))) := by decide

example : interpolate [constPoint (fpos (2^1074)), constPoint (fpos (2^1075))]
    .nan = .panicked := by decide

example : interpolate [constPoint (fpos (2^1074)), constPoint (fpos (2^1075))]
    (fpos (2^1074)) = .ok (constPoint (fpos (2^1074))) := by decide

example : interpolate [constPoint (fpos (2^1074)), constPoint (fpos (2^1075))]
    (fpos (2^1075)) = .ok (constPoint (fpos (2^1075))) := by decide

example : interpolate [] (fpos (2^1074)) = .err .noPoints := by decide

example : interpolate [constPoint .nan] .nan = .err .onePoint := by decide

example : interpolate [cxBefore, cxAfter] (fpos (2^1075)) =
    .ok { constPoint (F.zero false) with
            time := fpos (2^1075)
            latitude := fpos (2^1074)
            longitude := F.zero false } := by decide

example : interpolate [cxBefore, cxAfter] (fpos (2^1074)) =
    .ok { constPoint (F.zero false) with
            time := fpos (2^1074)
            latitude := F.zero false
            longitude := fpos (2^1074) } := by decide

example : interpolate [constPoint (fpos (2^1074)), constPoint (fpos (2^1074))] (fpos (2^1074)) =
    .ok { constPoint F.nan with time := fpos (2^1074) } := by decide

theorem pointBits64_of_finite {p : Point Nat} (h : PointFinite p) : PointBits64 p := by
  obtain ⟨h1, h2, h3, h4, h5, h6, h7, h8, h9, h10, h11, h12, h13, h14, h15, h16, h17⟩ := h
  exact ⟨h1.1, h2.1, h3.1, h4.1, h5.1, h6.1, h7.1, h8.1, h9.1, h10.1, h11.1, h12.1,
    h13.1, h14.1, h15.1, h16.1, h17.1⟩

theorem bytesOfF64_length (x : Nat) : (bytesOfF64 x).length = 8 := by
  simp [bytesOfF64]

theorem leAssemble_bytesOfF64 {x : Nat} (h : x < 2^64) :
    leAssemble (bytesOfF64 x) = x := by
  simp only [bytesOfF64, leAssemble]
  omega

theorem readF64_encode {x : Nat} (h : x < 2^64) (l : List Nat) :
    readF64 (bytesOfF64 x ++ l) = some (x, l) := by
  have hlen : (bytesOfF64 x ++ l).length = 8 + l.length := by
    simp [bytesOfF64_length]
  simp only [readF64, hlen, if_pos (by omega : 8 ≤ 8 + l.length)]
  rw [List.take_left' (bytesOfF64_length x), List.drop_left' (bytesOfF64_length x),
    leAssemble_bytesOfF64 h]

theorem read_one_write_one {p : Point Nat} (hv : PointBits64 p) (l : List Nat) :
    read_one (write_one p ++ l) = .point p l := by
  obtain ⟨h1, h2, h3, h4, h5, h6, h7, h8, h9, h10, h11, h12, h13, h14, h15, h16, h17⟩ := hv
  simp only [write_one, List.append_assoc, read_one, readRest,
    readF64_encode h1, readF64_encode h2, readF64_encode h3, readF64_encode h4,
    readF64_encode h5, readF64_encode h6, readF64_encode h7, readF64_encode h8,
    readF64_encode h9, readF64_encode h10, readF64_encode h11, readF64_encode h12,
    readF64_encode h13, readF64_encode h14, readF64_encode h15, readF64_encode h16,
    readF64_encode h17]

theorem write_one_length (p : Point Nat) : (write_one p).length = 136 := by
  simp [write_one, bytesOfF64]

theorem writeAll_length (ps : List (Point Nat)) :
    (writeAll ps).length = 136 * ps.length := by
  induction ps with
  | nil => rfl
  | cons p rest ih =>
    simp only [writeAll, List.length_append, List.length_cons, write_one_length, ih]
    omega

theorem readAllGo_writeAll (ps : List (Point Nat)) :
    ∀ fuel, ps.length < fuel → (∀ p ∈ ps, PointBits64 p) →
    readAllGo fuel (writeAll ps) = some ps := by
  induction ps with
  | nil =>
    intro fuel hfuel _
    match fuel, hfuel with
    | f+1, _ => rfl
  | cons p rest ih =>
    intro fuel hfuel hv
    match fuel, hfuel with
    | f+1, hfuel =>
      have hp : PointBits64 p := hv p (List.mem_cons_self p rest)
      simp only [writeAll, readAllGo, read_one_write_one hp]
      rw [ih f (by simpa using hfuel) fun q hq => hv q (List.mem_cons_of_mem p hq)]
      rfl

theorem readAll_writeAll {ps : List (Point Nat)} (hv : ∀ p ∈ ps, PointBits64 p) :
    readAll (writeAll ps) = some ps := by
  have hlen := writeAll_length ps
  exact readAllGo_writeAll ps ((writeAll ps).length + 1) (by omega) hv

theorem readF64_short {bytes : List Nat} (h : bytes.length < 8) : readF64 bytes = none := by
  simp only [readF64, if_neg (by omega : ¬ 8 ≤ bytes.length)]

theorem readF64_long {bytes : List Nat} (h : 8 ≤ bytes.length) :
    readF64 bytes = some (leAssemble (bytes.take 8), bytes.drop 8) := by
  simp only [readF64, if_pos h]

theorem readRest_short (t : Nat) (bs : List Nat) (h : bs.length < 128) :
    readRest t bs = none := by
  have hs : bs.length < 8 ∨ (8 ≤ bs.length ∧ bs.length < 16) ∨
      (16 ≤ bs.length ∧ bs.length < 24) ∨ (24 ≤ bs.length ∧ bs.length < 32) ∨
      (32 ≤ bs.length ∧ bs.length < 40) ∨ (40 ≤ bs.length ∧ bs.length < 48) ∨
      (48 ≤ bs.length ∧ bs.length < 56) ∨ (56 ≤ bs.length ∧ bs.length < 64) ∨
      (64 ≤ bs.length ∧ bs.length < 72) ∨ (72 ≤ bs.length ∧ bs.length < 80) ∨
      (80 ≤ bs.length ∧ bs.length < 88) ∨ (88 ≤ bs.length ∧ bs.length < 96) ∨
      (96 ≤ bs.length ∧ bs.length < 104) ∨ (104 ≤ bs.length ∧ bs.length < 112) ∨
      (112 ≤ bs.length ∧ bs.length < 120) ∨ (120 ≤ bs.length ∧ bs.length < 128) := by
    omega
  rcases hs with h0 | h0 | h0 | h0 | h0 | h0 | h0 | h0 | h0 | h0 | h0 | h0 | h0 | h0 | h0 | h0 <;>
    simp (disch := (try simp only [List.length_drop]); omega) only
      [readRest, readF64_short, readF64_long, List.length_drop]

theorem readRest_long (t : Nat) (bs : List Nat) (h : 128 ≤ bs.length) :
    ∃ q, readRest t bs = some (q, bs.drop 128) := by
  simp (disch := (try simp only [List.length_drop]); omega) only
    [readRest, readF64_long, List.length_drop, List.drop_drop]
  exact ⟨_, rfl⟩

theorem read_one_eof {bytes : List Nat} (h : bytes.length < 8) :
    read_one bytes = .eof := by
  simp only [read_one, readF64_short h]

theorem read_one_truncated {bytes : List Nat} (h8 : 8 ≤ bytes.length)
    (h : bytes.length < 136) : read_one bytes = .truncated := by
  simp only [read_one, readF64_long h8,
    readRest_short _ (bytes.drop 8) (by simp only [List.length_drop]; omega)]

theorem read_one_long {bytes : List Nat} (h : 136 ≤ bytes.length) :
    ∃ p, read_one bytes = .point p (bytes.drop 136) := by
  obtain ⟨q, hq⟩ := readRest_long (leAssemble (bytes.take 8)) (bytes.drop 8)
    (by simp only [List.length_drop]; omega)
  refine ⟨q, ?_⟩
  simp only [read_one, readF64_long (by omega : 8 ≤ bytes.length), hq,
    List.drop_drop]

theorem stepByGo_getElem {α : Type} (n : Nat) (hn : 1 ≤ n) :
    ∀ (l : List α) (c i : Nat), (stepByGo n c l)[i]? = l[c + n * i]? := by
  intro l
  induction l with
  | nil => intro c i; simp [stepByGo]
  | cons x rest ih =>
    intro c i
    by_cases hc : c = 0
    · subst hc
      have h1 : stepByGo n 0 (x :: rest) = x :: stepByGo n (n - 1) rest := by
        simp [stepByGo]
      cases i with
      | zero => simp [h1]
      | succ j =>
        have hms : n * (j + 1) = n * j + n := Nat.mul_succ n j
        have hidx : 0 + n * (j + 1) = (n - 1 + n * j) + 1 := by omega
        rw [h1, List.getElem?_cons_succ, ih (n - 1) j, hidx, List.getElem?_cons_succ]
    · have h1 : stepByGo n c (x :: rest) = stepByGo n (c - 1) rest := by
        simp [stepByGo, hc]
      have hidx : c + n * i = (c - 1 + n * i) + 1 := by omega
      rw [h1, ih (c - 1) i, hidx, List.getElem?_cons_succ]

theorem step_by_getElem {α : Type} (n : Nat) (hn : 1 ≤ n) (l : List α) (i : Nat) :
    (step_by n l)[i]? = l[n * i]? := by
  simpa using stepByGo_getElem n hn l 0 i

theorem step_by_one {α : Type} (l : List α) : step_by 1 l = l := by
  have h : ∀ m : List α, stepByGo 1 0 m = m := by
    intro m
    induction m with
    | nil => rfl
    | cons x rest ih => simp [stepByGo, ih]
  exact h l

theorem flt_irrefl (t : F) : flt t t = false := by
  cases t <;> simp [flt]

theorem fle_self {t : F} (ht : t ≠ F.nan) : fle t t = true := by
  cases t <;> simp [fle, flt, feq] at ht ⊢

theorem fmul_nan_left (y : F) : fmul F.nan y = F.nan := by
  cases y <;> rfl

theorem fadd_nan_right (x : F) : fadd x F.nan = F.nan := by
  cases x <;> rfl

theorem fdiv_fsub_self {t : F} (ht : t ≠ F.nan) :
    fdiv (fsub t t) (fsub t t) = F.nan := by
  cases t with
  | nan => exact absurd rfl ht
  | inf s => simp [fsub, fneg, fadd, fdiv]
  | zero s => simp [fsub, fneg, fadd, fdiv]
  | finite a => simp [fsub, fneg, fadd, fdiv]

theorem lerpPoint_self_nan {a b : Point F} {t : F} (ha : a.time = t)
    (hb : b.time = t) (ht : t ≠ F.nan) :
    lerpPoint a b t = { constPoint F.nan with time := t } := by
  simp [lerpPoint, ha, hb, fdiv_fsub_self ht, fmul_nan_left, fadd_nan_right, constPoint]

theorem interpolateScan_eq_firstBracket (t : F) :
    ∀ l : List (Point F),
      interpolateScan t l = (firstBracket t l).map fun pr => lerpPoint pr.1 pr.2 t := by
  intro l
  induction l with
  | nil => rfl
  | cons a tl ih =>
    cases tl with
    | nil => rfl
    | cons b rest =>
      by_cases hb : bracket a b t
      · simp [interpolateScan, firstBracket, hb]
      · simp only [interpolateScan, firstBracket, if_neg hb]
        exact ih

/-- C1 (amended): encoding a `Point` whose seventeen fields are finite `f64`
bit patterns with `Writer::write_one` and then decoding the resulting 136
bytes (not 112: the record is 17 fields of 8 bytes) with `Reader::read_one`
yields `Ok(Some(q))` with `q` equal to `p` bit for bit in every field, the
whole record being consumed. -/
theorem c1_round_trip (p : Point Nat) (h : PointFinite p) :
    read_one (write_one p) = .point p [] ∧ (write_one p).length = 136 := by
  constructor
  · simpa using read_one_write_one (pointBits64_of_finite h) []
  · exact write_one_length p

/-- Witness for C1 at the all-zero point. -/
theorem c1_round_trip_witness :
    PointFinite zeroPointBits ∧
    (read_one (write_one zeroPointBits) = .point zeroPointBits [] ∧
      (write_one zeroPointBits).length = 136) :=
  ⟨by decide, c1_round_trip zeroPointBits (by decide)⟩

/-- Counterexample to C1 as stated: the bytes produced by `write_one` number
136, not 112, already for the all-zero point. -/
theorem c1_counterexample :
    (write_one zeroPointBits).length = 136 ∧ ¬ (write_one zeroPointBits).length = 112 := by
  decide

/-- C2 (amended): `read_one` returns the clean end-of-stream signal
`Ok(None)` exactly when fewer than 8 bytes remain (the first field's
`read_exact` reports end-of-input both for an empty stream and for a
partial first field of 1 to 7 bytes, and the code maps that single error
kind to `Ok(None)`); it returns the truncated-record decode error exactly
when the first field succeeds but a later one hits end-of-input, that is
for remaining lengths 8 to 135; with 136 bytes or more a full record is
decoded. -/
theorem c2_eof_boundaries (bytes : List Nat) :
    (bytes.length < 8 → read_one bytes = .eof) ∧
    (8 ≤ bytes.length → bytes.length < 136 → read_one bytes = .truncated) ∧
    (136 ≤ bytes.length → ∃ p, read_one bytes = .point p (bytes.drop 136)) :=
  ⟨fun h => read_one_eof h, fun h8 h => read_one_truncated h8 h,
    fun h => read_one_long h⟩

/-- Witness for C2 at a 1-byte and a 9-byte stream. -/
theorem c2_eof_boundaries_witness :
    (([0] : List Nat).length < 8 ∧ read_one [0] = .eof) ∧
    (8 ≤ (List.replicate 9 0).length ∧ (List.replicate 9 0).length < 136 ∧
      read_one (List.replicate 9 0) = .truncated) :=
  ⟨⟨by decide, (c2_eof_boundaries [0]).1 (by decide)⟩,
    ⟨by decide, by decide, (c2_eof_boundaries (List.replicate 9 0)).2.1 (by decide) (by decide)⟩⟩

/-- Counterexample to C2 as stated: a 1-byte input (a positive non-multiple
of 112 below 8) yields the clean end-of-stream signal rather than a decode
error, and a 112-byte input (a positive multiple of 112, hence by the claim
a whole well-formed record) yields the decode error. -/
theorem c2_counterexample :
    read_one [0] = .eof ∧ read_one (List.replicate 112 0) = .truncated := by
  decide

/-- C6 (amended): writing each of K points in order with `write_one`
produces exactly `136 * K` bytes (not `112 * K`: each record is 17 fields
of 8 bytes), and reading that stream back by repeated `read_one` calls
yields exactly those K points in order and then the clean end-of-stream
signal (`readAll` returns `some` exactly when the final `read_one` reports
`Ok(None)`). -/
theorem c6_count_law (ps : List (Point Nat)) (h : ∀ p ∈ ps, PointBits64 p) :
    (writeAll ps).length = 136 * ps.length ∧ readAll (writeAll ps) = some ps :=
  ⟨writeAll_length ps, readAll_writeAll h⟩

/-- Witness for C6 on a two-point sequence. -/
theorem c6_count_law_witness :
    (∀ p ∈ [zeroPointBits, zeroPointBits], PointBits64 p) ∧
    ((writeAll [zeroPointBits, zeroPointBits]).length = 136 * 2 ∧
      readAll (writeAll [zeroPointBits, zeroPointBits]) =
        some [zeroPointBits, zeroPointBits]) :=
  ⟨by decide, c6_count_law [zeroPointBits, zeroPointBits] (by decide)⟩

/-- Counterexample to C6 as stated: already for one point the encoded
stream has 136 bytes, not `112 * 1`. -/
theorem c6_counterexample :
    (writeAll [zeroPointBits]).length = 136 ∧
    ¬ (writeAll [zeroPointBits]).length = 112 * 1 := by
  decide

/-- C7: `estimate_number_of_points` computes the point count from the file
size alone (its model here takes only the size in bytes as input) as the
integer division of the size by the crate constant 112; a 224-byte file
reports 2. -/
theorem c7_estimate_from_size :
    estimate_number_of_points 224 = 2 ∧
    ∀ fileSize : Nat, estimate_number_of_points fileSize = fileSize / 112 :=
  ⟨rfl, fun _ => rfl⟩

/-- C8: for every stride `n ≥ 1` and every decodable source stream, the
decimated reading — the reader iterator composed with `step_by n` — yields
exactly the points at source indices `0, n, 2n, …` and no others (element
`i` of the decimated sequence is element `n * i` of the full sequence, and
positions past its end are empty in both); every skipped record is still
pulled and fully decoded (`stepByGo` consumes each element of the decoded
sequence and merely filters the surfacing); and stride 1 yields every
point. -/
theorem c8_decimation :
    (∀ n : Nat, 1 ≤ n → ∀ (bytes : List Nat) (ps : List (Point Nat)),
      readAll bytes = some ps → ∀ i : Nat, (step_by n ps)[i]? = ps[n * i]?) ∧
    (∀ ps : List (Point Nat), step_by 1 ps = ps) :=
  ⟨fun n hn _ _ _ i => step_by_getElem n hn _ i, fun ps => step_by_one ps⟩

/-- Witness for C8 with stride 2 on a three-point stream. -/
theorem c8_decimation_witness :
    (1 ≤ 2 ∧
      readAll (writeAll [zeroPointBits, zeroPointBits, zeroPointBits]) =
        some [zeroPointBits, zeroPointBits, zeroPointBits]) ∧
    (step_by 2 [zeroPointBits, zeroPointBits, zeroPointBits])[1]? =
      [zeroPointBits, zeroPointBits, zeroPointBits][2 * 1]? :=
  ⟨⟨by decide, by decide⟩,
    c8_decimation.1 2 (by decide) (writeAll [zeroPointBits, zeroPointBits, zeroPointBits])
      [zeroPointBits, zeroPointBits, zeroPointBits] (by decide) 1⟩

theorem firstBracket_some (t : F) :
    ∀ (l : List (Point F)) {a b : Point F},
      firstBracket t l = some (a, b) → bracket a b t = true := by
  intro l
  induction l with
  | nil => intro a b h; simp [firstBracket] at h
  | cons x tl ih =>
    cases tl with
    | nil => intro a b h; simp [firstBracket] at h
    | cons y rest =>
      intro a b h
      by_cases hx : bracket x y t
      · simp only [firstBracket, if_pos hx, Option.some.injEq, Prod.mk.injEq] at h
        obtain ⟨rfl, rfl⟩ := h
        exact hx
      · simp only [firstBracket, if_neg hx] at h
        exact ih h

/-- C3: `interpolate` on an empty slice returns the `NoPoints` error; on a
one-element slice it returns the `OnePoint` error whatever the query time;
and on a slice of at least two points sorted ascending by time, a query
time strictly below the first time or strictly above the last time returns
the `Extrapolation` error carrying exactly the query time, the first
point's time and the last point's time. -/
theorem c3_failure_laws :
    (∀ t : F, interpolate [] t = .err .noPoints) ∧
    (∀ (p : Point F) (t : F), interpolate [p] t = .err .onePoint) ∧
    (∀ (p0 p1 : Point F) (rest : List (Point F)) (t : F),
      SortedByTime (p0 :: p1 :: rest) →
      (flt t p0.time = true ∨
        flt ((p0 :: p1 :: rest).getLast (List.cons_ne_nil p0 (p1 :: rest))).time t = true) →
      interpolate (p0 :: p1 :: rest) t =
        .err (.extrapolation t p0.time
          ((p0 :: p1 :: rest).getLast (List.cons_ne_nil p0 (p1 :: rest))).time)) := by
  refine ⟨fun t => rfl, fun p t => rfl, fun p0 p1 rest t _ hd => ?_⟩
  have hcond : (fgt p0.time t ||
      flt ((p0 :: p1 :: rest).getLast (List.cons_ne_nil p0 (p1 :: rest))).time t) = true := by
    rcases hd with hd | hd
    · have hg : fgt p0.time t = true := hd
      rw [hg, Bool.true_or]
    · rw [hd, Bool.or_true]
  simp only [interpolate]
  rw [if_pos hcond]

/-- Witness for C3: sorted points at times 1.0 and 2.0, query time +0.0. -/
theorem c3_failure_laws_witness :
    SortedByTime [onesPoint, twosPoint] ∧
    flt (F.zero false) onesPoint.time = true ∧
    interpolate [onesPoint, twosPoint] (F.zero false) =
      .err (.extrapolation (F.zero false) onesPoint.time
        ([onesPoint, twosPoint].getLast (List.cons_ne_nil onesPoint [twosPoint])).time) :=
  ⟨by simp only [SortedByTime, List.chain'_cons, List.chain'_singleton, and_true]; decide,
    by decide,
    c3_failure_laws.2.2 onesPoint twosPoint [] (F.zero false)
      (by simp only [SortedByTime, List.chain'_cons, List.chain'_singleton, and_true]; decide)
      (Or.inl (by decide))⟩

/-- C4 (amended): for every slice of at least two points and every query
time passing the range check, `interpolate` scans adjacent pairs in order
and, at the first pair `(before, after)` whose bracket condition
`before.time <= time && after.time >= time` holds, returns exactly
`lerpPoint before after time`: each of the sixteen non-time fields is
`before.field + factor * (after.field - before.field)` with
`factor = (time - before.time) / (after.time - before.time)`, while the
`time` field is the query time itself, assigned directly rather than
through that formula. -/
theorem c4_first_match_formula (p0 p1 : Point F) (rest : List (Point F)) (t : F)
    (before after : Point F)
    (hgt : fgt p0.time t = false)
    (hlt : flt ((p0 :: p1 :: rest).getLast (List.cons_ne_nil p0 (p1 :: rest))).time t = false)
    (hfb : firstBracket t (p0 :: p1 :: rest) = some (before, after)) :
    interpolate (p0 :: p1 :: rest) t = .ok (lerpPoint before after t) ∧
    (lerpPoint before after t).time = t := by
  refine ⟨?_, rfl⟩
  have hcond : (fgt p0.time t ||
      flt ((p0 :: p1 :: rest).getLast (List.cons_ne_nil p0 (p1 :: rest))).time t) = false := by
    rw [hgt, hlt, Bool.or_self]
  have hscan : interpolateScan t (p0 :: p1 :: rest) = some (lerpPoint before after t) := by
    rw [interpolateScan_eq_firstBracket, hfb]
    rfl
  simp only [interpolate]
  rw [if_neg (by rw [hcond]; exact Bool.false_ne_true), hscan]

/-- Witness for C4 at the pair (1.0-point, 2.0-point) and query time 1.5. -/
theorem c4_first_match_formula_witness :
    (fgt onesPoint.time (fpos (3 * 2^1073)) = false ∧
      flt ([onesPoint, twosPoint].getLast
        (List.cons_ne_nil onesPoint [twosPoint])).time (fpos (3 * 2^1073)) = false ∧
      firstBracket (fpos (3 * 2^1073)) [onesPoint, twosPoint] =
        some (onesPoint, twosPoint)) ∧
    (interpolate [onesPoint, twosPoint] (fpos (3 * 2^1073)) =
        .ok (lerpPoint onesPoint twosPoint (fpos (3 * 2^1073))) ∧
      (lerpPoint onesPoint twosPoint (fpos (3 * 2^1073))).time = fpos (3 * 2^1073)) :=
  ⟨⟨by decide, by decide, by decide⟩,
    c4_first_match_formula onesPoint twosPoint [] (fpos (3 * 2^1073)) onesPoint twosPoint
      (by decide) (by decide) (by decide)⟩

/-- Counterexample to C4 as stated: at the zero-width first pair (both times
1.0, query time 1.0) the claim's formula for the `time` field,
`before.time + factor * (after.time - before.time)`, evaluates to NaN
(`factor` is `0/0`), yet `interpolate` returns the query time 1.0 in the
`time` field — so not every one of the 17 fields equals the formula. -/
theorem c4_counterexample :
    interpolate [constPoint (fpos (2^1074)), constPoint (fpos (2^1074))] (fpos (2^1074)) =
      .ok { constPoint F.nan with time := fpos (2^1074) } ∧
    fadd (fpos (2^1074))
      (fmul (fdiv (fsub (fpos (2^1074)) (fpos (2^1074)))
                  (fsub (fpos (2^1074)) (fpos (2^1074))))
            (fsub (fpos (2^1074)) (fpos (2^1074)))) = F.nan ∧
    fpos (2^1074) ≠ F.nan := by
  refine ⟨by decide, by decide, by decide⟩

/-- C5 (amended): for the concrete two-point sequence with every field 1.0
at time 1.0 and every field 2.0 at time 2.0, interpolating at 1.5 gives a
point with every field exactly 1.5, interpolating at 1.0 returns the first
point exactly and at 2.0 the second point exactly; in general, boundary
interpolation reproduces the boundary point only up to floating-point
rounding and the sign of zeros, not bit for bit (see the counterexample). -/
theorem c5_boundary_and_midpoint :
    interpolate [onesPoint, twosPoint] (fpos (3 * 2^1073)) =
      .ok (constPoint (fpos (3 * 2^1073))) ∧
    interpolate [onesPoint, twosPoint] (fpos (2^1074)) = .ok onesPoint ∧
    interpolate [onesPoint, twosPoint] (fpos (2^1075)) = .ok twosPoint := by
  refine ⟨by decide, by decide, by decide⟩

/-- Counterexample to C5 as stated: for the sorted two-point slice
`[cxBefore (t1 = 1.0), cxAfter (t2 = 2.0)]`, all fields finite, the point
returned at query time `t2` has longitude `+0.0` where `cxAfter` has
`2^(-60)` (the rounding of `1.0 + 1.0 * (2^(-60) - 1.0)` loses the tiny
term), and the point returned at `t1` has latitude `+0.0` where `cxBefore`
has `-0.0` (`-0.0 + 0.0 * (1.0 - -0.0)` is `+0.0`) — so neither boundary
reproduces its point bit for bit. -/
theorem c5_counterexample :
    interpolate [cxBefore, cxAfter] (fpos (2^1075)) =
      .ok { constPoint (F.zero false) with
              time := fpos (2^1075)
              latitude := fpos (2^1074)
              longitude := F.zero false } ∧
    F.zero false ≠ cxAfter.longitude ∧
    interpolate [cxBefore, cxAfter] (fpos (2^1074)) =
      .ok { constPoint (F.zero false) with
              time := fpos (2^1074)
              latitude := F.zero false
              longitude := fpos (2^1074) } ∧
    F.zero false ≠ cxBefore.latitude := by
  refine ⟨by decide, by decide, by decide, by decide⟩

/-- C9 is wrong about the code: with a NaN query time (the claim includes
NaN explicitly) and at least two points, both range-check comparisons are
false, no adjacent pair can satisfy `before.time <= time`, the scan falls
through, and the `unreachable!()` arm executes — the process panics instead
of returning a typed result.  The code thereby violates its own
`unreachable!()` assertion; this theorem evaluates the model at the failing
input. -/
theorem c9_panics_on_nan_query :
    interpolate [onesPoint, twosPoint] F.nan = .panicked := by decide

/-- C10: when the first pair found by the scan has both times equal to the
query time `t` (a zero-width bracket, possible since sortedness is never
validated), `interpolate` succeeds: `factor = (t - t) / (t - t)` is `0/0`,
NaN, so the returned point carries the query time in `time` and NaN in all
sixteen other fields. -/
theorem c10_zero_width_bracket (p0 p1 : Point F) (rest : List (Point F)) (t : F)
    (before after : Point F)
    (hgt : fgt p0.time t = false)
    (hlt : flt ((p0 :: p1 :: rest).getLast (List.cons_ne_nil p0 (p1 :: rest))).time t = false)
    (hfb : firstBracket t (p0 :: p1 :: rest) = some (before, after))
    (hbt : before.time = t) (hat : after.time = t) :
    interpolate (p0 :: p1 :: rest) t = .ok { constPoint F.nan with time := t } := by
  have hbr : bracket before after t = true := firstBracket_some t (p0 :: p1 :: rest) hfb
  have ht : t ≠ F.nan := by
    have hbr2 : (fle before.time t && fge after.time t) = true := hbr
    have h1 : fle before.time t = true := ((Bool.and_eq_true _ _).mp hbr2).1
    rw [hbt] at h1
    intro hnan
    rw [hnan] at h1
    simp [fle, flt, feq] at h1
  have hcond : (fgt p0.time t ||
      flt ((p0 :: p1 :: rest).getLast (List.cons_ne_nil p0 (p1 :: rest))).time t) = false := by
    rw [hgt, hlt, Bool.or_self]
  have hscan : interpolateScan t (p0 :: p1 :: rest) = some (lerpPoint before after t) := by
    rw [interpolateScan_eq_firstBracket, hfb]
    rfl
  simp only [interpolate]
  rw [if_neg (by rw [hcond]; exact Bool.false_ne_true), hscan,
    lerpPoint_self_nan hbt hat ht]

/-- Witness for C10 at the slice of two identical points with time 1.0. -/
theorem c10_zero_width_bracket_witness :
    (fgt (constPoint (fpos (2^1074)) : Point F).time (fpos (2^1074)) = false ∧
      flt ([constPoint (fpos (2^1074)), constPoint (fpos (2^1074))].getLast
        (List.cons_ne_nil _ _)).time (fpos (2^1074)) = false ∧
      firstBracket (fpos (2^1074))
          [constPoint (fpos (2^1074)), constPoint (fpos (2^1074))] =
        some (constPoint (fpos (2^1074)), constPoint (fpos (2^1074))) ∧
      (constPoint (fpos (2^1074)) : Point F).time = fpos (2^1074)) ∧
    interpolate [constPoint (fpos (2^1074)), constPoint (fpos (2^1074))] (fpos (2^1074)) =
      .ok { constPoint F.nan with time := fpos (2^1074) } :=
  ⟨⟨by decide, by decide, by decide, by decide⟩,
    c10_zero_width_bracket (constPoint (fpos (2^1074))) (constPoint (fpos (2^1074))) []
      (fpos (2^1074)) (constPoint (fpos (2^1074))) (constPoint (fpos (2^1074)))
      (by decide) (by decide) (by decide) (by decide) (by decide)⟩
